import Mathlib

set_option maxRecDepth 100000

/-!
Verification of the SecureTransfer repository's core protocol code against its
natural-language specification.

The development shallowly embeds the relevant TypeScript functions:

* `src/utils/security.ts` (room codes, PIN hashing, file-name sanitization,
  rate limiting, sessions, checksums),
* `src/hooks/useFileTransfer.ts` (chunked sender loop and receiver message
  handler),
* `src/hooks/useWebRTC.ts` (host connection-request and PIN-attempt handling),
* `src/components/security/ConnectionApprovalModal.tsx` (approval countdown),
* `src/types/index.ts` (constants).

Bytes are modelled as `Nat` (values < 256 where it matters), JS strings as
`List Char` or `String`, JS `Map`s as association lists, and `Date.now()`
timestamps as explicit `Nat` parameters.  The single-threaded event loop is
modelled by processing each message handler to completion in arrival order.
Floating-point display fields (`percentage`, `speed`,
`estimatedTimeRemaining`) appear in the source types but are derived,
timing-dependent display data that no verified claim mentions; they are
omitted from the embedded progress records.
-/

namespace SecureTransfer

/-! ## JS-style list helpers -/

/-- End index of a JS `slice(0, e)` call on a list of length `len`:
a negative `e` counts from the end (clamped at 0), a nonnegative `e` is
clamped at `len` (clamping is provided by `List.take`). -/
def jsSliceZero (l : List α) (e : Int) : List α :=
  l.take (if e < 0 then l.length - (-e).toNat else e.toNat)

/-- Index of the last `'.'` in a list, as JS `lastIndexOf` returns it
(`-1` when absent). -/
def lastDotIdx (l : List Char) : Int :=
  match l.reverse.findIdx? (fun c => c = '.') with
  | some i => ((l.length - 1 - i : Nat) : Int)
  | none => -1

/-! ## sanitizeFileName (src/utils/security.ts)

The source applies five steps in order: remove `".."` pairs, remove path
separators, remove XSS-prone specials, remove control characters, truncate to
255 preserving the extension, and finally substitute `"unnamed_file"` when the
trimmed result is empty. -/

/-- JS `name.replace(/\.\./g, '')`: left-to-right removal of non-overlapping
`".."` pairs. -/
def removeDotDot : List Char → List Char
  | '.' :: '.' :: rest => removeDotDot rest
  | c :: rest => c :: removeDotDot rest
  | [] => []

/-- Characters removed by `replace(/[/\\]/g, '')`. -/
def isPathSep (c : Char) : Bool := c = '/' || c = '\\'

/-- Characters removed by `replace(/[<>:"|?*]/g, '')`. -/
def isXssChar (c : Char) : Bool :=
  c = '<' || c = '>' || c = ':' || c = '"' || c = '|' || c = '?' || c = '*'

/-- Characters removed by `replace(/[\x00-\x1f\x7f]/g, '')`. -/
def isCtrlChar (c : Char) : Bool := c.toNat ≤ 0x1f || c.toNat = 0x7f

/-- ECMAScript whitespace as removed by `String.prototype.trim`. -/
def jsIsSpace (c : Char) : Bool :=
  c.toNat = 0x20 || c.toNat = 0x09 || c.toNat = 0x0A || c.toNat = 0x0B ||
  c.toNat = 0x0C || c.toNat = 0x0D || c.toNat = 0xA0 || c.toNat = 0x1680 ||
  (0x2000 ≤ c.toNat && c.toNat ≤ 0x200A) || c.toNat = 0x2028 ||
  c.toNat = 0x2029 || c.toNat = 0x202F || c.toNat = 0x205F ||
  c.toNat = 0x3000 || c.toNat = 0xFEFF

/-- The first four sanitization steps (everything before the length cap). -/
def sanitizeBeforeTruncate (name : List Char) : List Char :=
  (((removeDotDot name).filter (fun c => !(isPathSep c))).filter
      (fun c => !(isXssChar c))).filter (fun c => !(isCtrlChar c))

/-- The length-cap step: over 255 characters, keep the extension (suffix from
the last dot, when that dot is at a positive index) and slice the base name to
`255 - extension.length` (a JS slice, so a negative bound counts from the
end). -/
def sanitizeTruncate (s : List Char) : List Char :=
  if 255 < s.length then
    if 0 < lastDotIdx s then
      jsSliceZero s ((255 : Int) - ((s.drop (lastDotIdx s).toNat).length : Int)) ++
        s.drop (lastDotIdx s).toNat
    else
      s.take 255
  else s

/-- `sanitizeFileName` from `src/utils/security.ts`.  The final guard
`if (!sanitized.trim())` tests whether the string is whitespace-only, which is
equivalent to the filter below being empty. -/
def sanitizeFileName (name : List Char) : List Char :=
  if ((sanitizeTruncate (sanitizeBeforeTruncate name)).filter
      (fun c => !(jsIsSpace c))).isEmpty then
    "unnamed_file".data
  else sanitizeTruncate (sanitizeBeforeTruncate name)

example : sanitizeFileName "./.".data = ['.', '.'] := by decide

example : sanitizeFileName "a<b>.txt".data = "ab.txt".data := by decide

example : sanitizeFileName "   ".data = "unnamed_file".data := by decide

/-! ## Constants (src/types/index.ts) -/

def CHUNK_SIZE : Nat := 64 * 1024

def MAX_FILE_SIZE : Nat := 2 * 1024 * 1024 * 1024

def MAX_SESSION_SIZE : Nat := 10 * 1024 * 1024 * 1024

def ROOM_CODE_LENGTH : Nat := 8

def ROOM_CODE_EXPIRY_MS : Nat := 60 * 60 * 1000

def MAX_PIN_ATTEMPTS : Nat := 3

def MAX_CONNECTION_ATTEMPTS : Nat := 3

def CONNECTION_ATTEMPT_WINDOW_MS : Nat := 5 * 60 * 1000

def APPROVAL_TIMEOUT_MS : Nat := 30 * 1000

def HEARTBEAT_INTERVAL_MS : Nat := 5 * 1000

/-! ## Room codes (src/utils/security.ts) -/

/-- The base32-minus-ambiguous alphabet from the source (the comment there
says it excludes 0, O, I, 1 and L). -/
def ROOM_CODE_ALPHABET : List Char := "ABCDEFGHJKMNPQRSTUVWXYZ23456789".data

/-- `generateSecureRoomCode`, parameterized by the `ROOM_CODE_LENGTH` bytes
that `crypto.getRandomValues` fills in: each byte indexes the alphabet modulo
its length and a cosmetic dash is inserted after the fourth character. -/
def generateSecureRoomCode (randomBytes : List Nat) : List Char :=
  let code := randomBytes.map
    (fun b => ROOM_CODE_ALPHABET.getD (b % ROOM_CODE_ALPHABET.length) ' ')
  code.take 4 ++ '-' :: code.drop 4

/-- `normalizeRoomCode`: strip dashes, uppercase. -/
def normalizeRoomCode (code : List Char) : List Char :=
  (code.filter (fun c => c ≠ '-')).map Char.toUpper

/-! ## Association lists standing in for JS `Map`s -/

/-- `Map.get`: the value bound to the key, if any. -/
def alLookup : List (String × α) → String → Option α
  | [], _ => none
  | (k', v) :: rest, k => if k' = k then some v else alLookup rest k

/-- `Map.set`: replace the binding in place when the key is present, append
otherwise. -/
def alInsert : List (String × α) → String → α → List (String × α)
  | [], k, v => [(k, v)]
  | (k', v') :: rest, k, v =>
    if k' = k then (k, v) :: rest else (k', v') :: alInsert rest k v

/-- `Map.delete`: drop the binding for the key. -/
def alErase : List (String × α) → String → List (String × α)
  | [], _ => []
  | (k', v') :: rest, k => if k' = k then rest else (k', v') :: alErase rest k

/-! ## Rate limiter (src/utils/security.ts)

`Date.now()` becomes an explicit `now : Nat` in milliseconds.  The source
computes `now - entry.firstAttempt` with JS numbers; the callers below only
ever pass a `now` at or after `firstAttempt`, where truncated `Nat`
subtraction agrees with JS subtraction (for `now < firstAttempt` both sides
make the `> windowMs` comparison false). -/

structure RateLimitEntry where
  attempts : Nat
  firstAttempt : Nat
  lastAttempt : Nat
  blocked : Bool
  blockedUntil : Option Nat
  deriving Repr, DecidableEq

/-- `isRateLimited`.  Returns the boolean plus the store, because the
window-expired branch deletes the stale entry. -/
def isRateLimited (store : List (String × RateLimitEntry)) (now : Nat)
    (key : String) (maxAttempts windowMs : Nat) :
    Bool × List (String × RateLimitEntry) :=
  match alLookup store key with
  | none => (false, store)
  | some entry =>
    if entry.blocked && entry.blockedUntil.isSome &&
        decide (now < entry.blockedUntil.getD 0) then
      (true, store)
    else if windowMs < now - entry.firstAttempt then
      (false, alErase store key)
    else
      (decide (maxAttempts ≤ entry.attempts), store)

/-- `recordAttempt`: start a fresh window when absent or expired, otherwise
increment, flipping to blocked once `attempts` reaches the maximum. -/
def recordAttempt (store : List (String × RateLimitEntry)) (now : Nat)
    (key : String) (maxAttempts windowMs blockDurationMs : Nat) :
    RateLimitEntry × List (String × RateLimitEntry) :=
  let entry : RateLimitEntry :=
    match alLookup store key with
    | none => ⟨1, now, now, false, none⟩
    | some e =>
      if windowMs < now - e.firstAttempt then ⟨1, now, now, false, none⟩
      else
        let e' := { e with attempts := e.attempts + 1, lastAttempt := now }
        if maxAttempts ≤ e'.attempts then
          { e' with blocked := true, blockedUntil := some (now + blockDurationMs) }
        else e'
  (entry, alInsert store key entry)

/-- `clearRateLimit`. -/
def clearRateLimit (store : List (String × RateLimitEntry)) (key : String) :
    List (String × RateLimitEntry) :=
  alErase store key

/-! ## Host connection handling (src/hooks/useWebRTC.ts) -/

inductive ConnState
  | idle
  | connecting
  | awaiting_approval
  | connected
  | transferring
  | completed
  | error
  | disconnected
  deriving Repr, DecidableEq

/-- The protocol replies the host can emit in the handshake. -/
inductive HostResp
  | connection_denied (reason : String)
  | connection_approved
  | pin_required
  | pin_verified
  | pin_invalid (attemptsRemaining : Nat)
  deriving Repr, DecidableEq

/-- An external approval provider, seen from the host: it resolves to
`decision` after `resolveAfterMs` milliseconds.  The source simply `await`s
the callback, so `resolveAfterMs` can be anything. -/
structure ApprovalProvider where
  resolveAfterMs : Nat
  decision : Bool
  deriving Repr, DecidableEq

/-- The host-side state touched by the `connection_request` handler. -/
structure HostConnState where
  connState : ConnState
  pinHash : Option String
  rateStore : List (String × RateLimitEntry)
  remotePeerId : Option String
  connectedAt : Option Nat
  isPinRequired : Bool
  heartbeatOn : Bool
  deriving Repr, DecidableEq

structure HostStepResult where
  responses : List HostResp
  state : HostConnState
  approvalInvoked : Bool
  deriving Repr, DecidableEq

/-- The `connection_request` case of `useWebRTC.handleMessage` on the host:
check the rate limiter; if limited reply `connection_denied` and stop;
otherwise record the attempt, enter `awaiting_approval`, and `await` the
approval callback — with no timeout, so the provider's delay is never
consulted.  `connectedAt` records `Date.now()` at resolution time,
i.e. `now + resolveAfterMs`. -/
def hostConnectionRequest (st : HostConnState) (now : Nat) (peerId : String)
    (provider : ApprovalProvider) : HostStepResult :=
  let checked := isRateLimited st.rateStore now peerId MAX_CONNECTION_ATTEMPTS
    CONNECTION_ATTEMPT_WINDOW_MS
  if checked.1 then
    { responses := [.connection_denied "Too many attempts"],
      state := { st with rateStore := checked.2 },
      approvalInvoked := false }
  else
    let recorded := recordAttempt checked.2 now peerId MAX_CONNECTION_ATTEMPTS
      CONNECTION_ATTEMPT_WINDOW_MS (5 * 60 * 1000)
    let stA := { st with rateStore := recorded.2, connState := .awaiting_approval }
    if provider.decision then
      let cleared := clearRateLimit stA.rateStore peerId
      if stA.pinHash.isSome then
        { responses := [.pin_required],
          state := { stA with rateStore := cleared, isPinRequired := true },
          approvalInvoked := true }
      else
        { responses := [.connection_approved],
          state := { stA with
            rateStore := cleared
            connState := .connected
            connectedAt := some (now + provider.resolveAfterMs)
            remotePeerId := some peerId
            heartbeatOn := true },
          approvalInvoked := true }
    else
      { responses := [.connection_denied "Connection denied"],
        state := { stA with connState := .idle },
        approvalInvoked := true }

/-- Run a sequence of `connection_request` events through the host. -/
def hostConnectionTrace (st : HostConnState) :
    List (Nat × String × ApprovalProvider) → HostConnState × List HostStepResult
  | [] => (st, [])
  | (t, p, prov) :: rest =>
    let r := hostConnectionRequest st t p prov
    let next := hostConnectionTrace r.state rest
    (next.1, r :: next.2)

/-! ## Approval countdown (src/components/security/ConnectionApprovalModal.tsx)

The 30-second auto-deny lives in the approval UI, not in `useWebRTC`: the
modal counts down from `APPROVAL_TIMEOUT_MS / 1000` in 1-second ticks, flips
`isExpired` when the countdown hits zero, and an effect then calls `onDeny`,
which resolves the approval promise with `false`. -/

/-- One tick of the modal countdown `(timeRemaining, isExpired)`. -/
def modalTick (s : Nat × Bool) : Nat × Bool :=
  if s.1 ≤ 1 then (0, true) else (s.1 - 1, s.2)

/-- Modal countdown state after `k` one-second ticks. -/
def modalStateAfter (k : Nat) : Nat × Bool :=
  modalTick^[k] (APPROVAL_TIMEOUT_MS / 1000, false)

/-- The approval provider realized by an unattended modal: `onDeny` fires at
the tick on which the countdown expires, `(APPROVAL_TIMEOUT_MS / 1000)`
seconds in. -/
def modalUnattendedProvider : ApprovalProvider :=
  { resolveAfterMs := (APPROVAL_TIMEOUT_MS / 1000) * 1000, decision := false }

/-! ## Host PIN verification (src/hooks/useWebRTC.ts, pin_attempt case) -/

inductive PinOutcome
  | verified
  | invalid (attemptsRemaining : Nat)
  | denied
  deriving Repr, DecidableEq

structure PinStepResult where
  outcome : PinOutcome
  responses : List HostResp
  connState : ConnState
  tornDown : Bool
  deriving Repr, DecidableEq

/-- The `pin_attempt` case of the host handler: compare the message's
`hashedPin` with the stored hash; on a match reply `pin_verified` then
`connection_approved` and connect; on a mismatch, deny and tear the session
down when the message's own `attemptNumber` has reached
`MAX_PIN_ATTEMPTS`, else reply `pin_invalid` with the remaining budget.
The host keeps no counter of its own — it trusts `attemptNumber` from the
wire (it stores it in `pinAttemptsRef` but never reads it back on this
path). -/
def hostPinAttempt (pinHash : Option String) (st : ConnState)
    (hashedPin : String) (attemptNumber : Nat) : PinStepResult :=
  if pinHash = some hashedPin then
    { outcome := .verified,
      responses := [.pin_verified, .connection_approved],
      connState := .connected, tornDown := false }
  else if MAX_PIN_ATTEMPTS ≤ attemptNumber then
    { outcome := .denied,
      responses := [.connection_denied "Too many PIN attempts"],
      connState := .idle, tornDown := true }
  else
    { outcome := .invalid (MAX_PIN_ATTEMPTS - attemptNumber),
      responses := [.pin_invalid (MAX_PIN_ATTEMPTS - attemptNumber)],
      connState := st, tornDown := false }

/-- Host processing of a raw sequence of `pin_attempt` messages
`(hashedPin, attemptNumber)`; stops once the session is torn down. -/
def hostPinFold (pinHash : Option String) :
    List (String × Nat) → ConnState → ConnState × List HostResp × Bool
  | [], st => (st, [], false)
  | (pin, num) :: rest, st =>
    let r := hostPinAttempt pinHash st pin num
    if r.tornDown then (r.connState, r.responses, true)
    else
      let next := hostPinFold pinHash rest r.connState
      (next.1, r.responses ++ next.2.1, next.2.2)

/-- The closed loop of host and the repository's own client: the client is
prompted once by `pin_required` and once per `pin_invalid` it receives; its
first attempt carries `attemptNumber` 1 and, after `pin_invalid r`, the next
carries `MAX_PIN_ATTEMPTS - r + 1`, exactly as `useWebRTC`'s client cases
compute them.  Arguments: hashes the user enters at successive prompts,
current attempt number, prompts so far.  Returns (prompt count, transcript,
torn down). -/
def pinSessionGo (pinHash : Option String) :
    List String → Nat → Nat → Nat × List HostResp × Bool
  | [], _, prompts => (prompts, [], false)
  | pin :: rest, attemptNumber, prompts =>
    let r := hostPinAttempt pinHash .awaiting_approval pin attemptNumber
    match r.outcome with
    | .invalid remaining =>
      let next := pinSessionGo pinHash rest (MAX_PIN_ATTEMPTS - remaining + 1)
        (prompts + 1)
      (next.1, r.responses ++ next.2.1, next.2.2)
    | _ => (prompts, r.responses, r.tornDown)

/-- A PIN round-trip that starts, as in the source, with the `pin_required`
prompt (prompt number 1) and client attempt number 1. -/
def pinSession (pinHash : Option String) (pins : List String) :
    Nat × List HostResp × Bool :=
  pinSessionGo pinHash pins 1 1

example :
    pinSession (some "h") ["a", "b", "c", "d"] =
      (3, [.pin_invalid 2, .pin_invalid 1,
           .connection_denied "Too many PIN attempts"], true) := by decide

example :
    hostPinFold (some "h") [("x", 1), ("x", 1), ("x", 1)] .awaiting_approval =
      (.awaiting_approval, [.pin_invalid 2, .pin_invalid 2, .pin_invalid 2],
        false) := by decide

/-! ## SHA-256

`generateChecksum` and `hashPin` call `crypto.subtle.digest('SHA-256', …)`,
a host primitive outside the repository, so the digest itself is embedded
from FIPS 180-4: bytes are `Nat`s below 256, words are `Nat`s reduced
modulo `2^32` after every arithmetic step. -/

/-- Right-rotation of a 32-bit word. -/
def rotr32 (n x : Nat) : Nat := ((x >>> n) ||| (x <<< (32 - n))) % 4294967296

/-- Bitwise complement of a 32-bit word. -/
def not32 (x : Nat) : Nat := 4294967295 ^^^ (x % 4294967296)

def sha256ch (e f g : Nat) : Nat := (e &&& f) ^^^ (not32 e &&& g)

def sha256maj (a b c : Nat) : Nat := (a &&& b) ^^^ (a &&& c) ^^^ (b &&& c)

def sha256bsig0 (x : Nat) : Nat := rotr32 2 x ^^^ rotr32 13 x ^^^ rotr32 22 x

def sha256bsig1 (x : Nat) : Nat := rotr32 6 x ^^^ rotr32 11 x ^^^ rotr32 25 x

def sha256ssig0 (x : Nat) : Nat := rotr32 7 x ^^^ rotr32 18 x ^^^ (x >>> 3)

def sha256ssig1 (x : Nat) : Nat := rotr32 17 x ^^^ rotr32 19 x ^^^ (x >>> 10)

/-- The 64 SHA-256 round constants (FIPS 180-4 section 4.2.2, in decimal). -/
def sha256K : List Nat :=
  [1116352408, 1899447441, 3049323471, 3921009573,
   961987163, 1508970993, 2453635748, 2870763221,
   3624381080, 310598401, 607225278, 1426881987,
   1925078388, 2162078206, 2614888103, 3248222580,
   3835390401, 4022224774, 264347078, 604807628,
   770255983, 1249150122, 1555081692, 1996064986,
   2554220882, 2821834349, 2952996808, 3210313671,
   3336571891, 3584528711, 113926993, 338241895,
   666307205, 773529912, 1294757372, 1396182291,
   1695183700, 1986661051, 2177026350, 2456956037,
   2730485921, 2820302411, 3259730800, 3345764771,
   3516065817, 3600352804, 4094571909, 275423344,
   430227734, 506948616, 659060556, 883997877,
   958139571, 1322822218, 1537002063, 1747873779,
   1955562222, 2024104815, 2227730452, 2361852424,
   2428436474, 2756734187, 3204031479, 3329325298]

/-- The initial SHA-256 hash value (FIPS 180-4 section 5.3.3, in decimal). -/
def sha256H0 : List Nat :=
  [1779033703, 3144134277, 1013904242, 2773480762,
   1359893119, 2600822924, 528734635, 1541459225]

/-- Message-schedule extension, on a reversed word accumulator: the head is
the most recent word, so `w[i-2]` is index 1 and `w[i-16]` index 15. -/
def sha256ExtendGo : Nat → List Nat → List Nat
  | 0, acc => acc
  | n + 1, acc =>
    let next := (sha256ssig1 (acc.getD 1 0) + acc.getD 6 0 +
      sha256ssig0 (acc.getD 14 0) + acc.getD 15 0) % 4294967296
    sha256ExtendGo n (next :: acc)

/-- A block's 64-word message schedule from its 16 words. -/
def sha256Schedule (block : List Nat) : List Nat :=
  (sha256ExtendGo 48 block.reverse).reverse

/-- The eight working variables of the compression loop. -/
structure Sha256State where
  a : Nat
  b : Nat
  c : Nat
  d : Nat
  e : Nat
  f : Nat
  g : Nat
  h : Nat
  deriving Repr, DecidableEq

/-- One round of the compression function. -/
def sha256Round (s : Sha256State) (k w : Nat) : Sha256State :=
  let t1 := (s.h + sha256bsig1 s.e + sha256ch s.e s.f s.g + k + w) % 4294967296
  let t2 := (sha256bsig0 s.a + sha256maj s.a s.b s.c) % 4294967296
  ⟨(t1 + t2) % 4294967296, s.a, s.b, s.c, (s.d + t1) % 4294967296,
    s.e, s.f, s.g⟩

/-- Process one 16-word block, updating the running hash. -/
def sha256Block (hs : List Nat) (block : List Nat) : List Nat :=
  let ws := sha256Schedule block
  let s0 : Sha256State := ⟨hs.getD 0 0, hs.getD 1 0, hs.getD 2 0, hs.getD 3 0,
    hs.getD 4 0, hs.getD 5 0, hs.getD 6 0, hs.getD 7 0⟩
  let sF := (sha256K.zip ws).foldl (fun s kw => sha256Round s kw.1 kw.2) s0
  [(hs.getD 0 0 + sF.a) % 4294967296, (hs.getD 1 0 + sF.b) % 4294967296,
   (hs.getD 2 0 + sF.c) % 4294967296, (hs.getD 3 0 + sF.d) % 4294967296,
   (hs.getD 4 0 + sF.e) % 4294967296, (hs.getD 5 0 + sF.f) % 4294967296,
   (hs.getD 6 0 + sF.g) % 4294967296, (hs.getD 7 0 + sF.h) % 4294967296]

/-- Big-endian 8-byte encoding of the bit length. -/
def be64 (n : Nat) : List Nat :=
  [(n >>> 56) % 256, (n >>> 48) % 256, (n >>> 40) % 256, (n >>> 32) % 256,
   (n >>> 24) % 256, (n >>> 16) % 256, (n >>> 8) % 256, n % 256]

/-- FIPS 180-4 padding: append `0x80`, zero-fill to 56 mod 64, then the
bit length. -/
def sha256Pad (m : List Nat) : List Nat :=
  m ++ 0x80 :: List.replicate ((119 - m.length % 64) % 64) 0 ++
    be64 (m.length * 8)

/-- Big-endian 4-byte groups to 32-bit words. -/
def bytesToWords : List Nat → List Nat
  | a :: b :: c :: d :: rest =>
    ((a % 256) * 16777216 + (b % 256) * 65536 + (c % 256) * 256 + d % 256) ::
      bytesToWords rest
  | _ => []

/-- Split a word list into 16-word blocks (fuelled to keep the recursion
structural; the fuel is the list length, which suffices). -/
def toBlocks16 : Nat → List Nat → List (List Nat)
  | 0, _ => []
  | _, [] => []
  | fuel + 1, ws => ws.take 16 :: toBlocks16 fuel (ws.drop 16)

/-- A hash word back to four big-endian bytes. -/
def wordToBytes (w : Nat) : List Nat :=
  [(w >>> 24) % 256, (w >>> 16) % 256, (w >>> 8) % 256, w % 256]

/-- SHA-256 of a byte list, as a 32-byte list. -/
def sha256 (msg : List Nat) : List Nat :=
  (((toBlocks16 (bytesToWords (sha256Pad msg)).length
      (bytesToWords (sha256Pad msg))).foldl sha256Block sha256H0).map
    wordToBytes).flatten

/-! ## Checksums (src/utils/security.ts) -/

/-- Lowercase hexadecimal digit characters. -/
def hexDigitChar (n : Nat) : Char := "0123456789abcdef".data.getD n '0'

/-- JS `b.toString(16).padStart(2, '0')` for a byte `b < 256`: always two
lowercase hex digits. -/
def jsHexByte (b : Nat) : List Char := [hexDigitChar (b / 16), hexDigitChar (b % 16)]

/-- `generateChecksum`: hex of the first 8 bytes of the SHA-256 digest
(the source slices the byte array to 8 entries of two hex digits each). -/
def generateChecksum (data : List Nat) : String :=
  String.mk ((((sha256 data).take 8).map jsHexByte).flatten)

/-- `verifyChecksum`: recompute and compare. -/
def verifyChecksum (data : List Nat) (expected : String) : Bool :=
  generateChecksum data == expected

/-- `hashPin`: full 64-hex-digit SHA-256 of the PIN's UTF-8 bytes (the PINs
in scope are 4 ASCII digits, whose UTF-8 bytes are their code points). -/
def hashPin (pin : String) : String :=
  String.mk (((sha256 (pin.data.map Char.toNat)).map jsHexByte).flatten)

example : generateChecksum [] = "e3b0c44298fc1c14" := by decide

example : generateChecksum [0x61, 0x62, 0x63] = "ba7816bf8f01cfea" := by decide

/-! ## Chunked transfer engine (src/hooks/useFileTransfer.ts)

A file's bytes are a `List Nat`.  The engine's per-file and batch progress
records keep the integer fields of the source types
(`TransferProgress`, `BatchProgress`); see the header note for the omitted
display fields. -/

/-- Ceiling division, as `Math.ceil(size / CHUNK_SIZE)` computes it for the
integer sizes in scope. -/
def ceilDiv (a b : Nat) : Nat := (a + b - 1) / b

/-- `createFileMetadata`'s chunk count. -/
def totalChunksOf (size : Nat) : Nat := ceilDiv size CHUNK_SIZE

/-- The metadata fields the receiver consumes (`id`, names, `size`,
`totalChunks`); batch bookkeeping fields (`batchId`, `fileIndex`,
`totalFilesInBatch`) and `type`/`lastModified`/`hash` ride along on the wire
but do not influence the verified behaviour, and are left out. -/
structure FileMeta where
  id : String
  name : String
  sanitizedName : String
  size : Nat
  totalChunks : Nat
  deriving Repr, DecidableEq

/-- A `file_chunk` payload. -/
structure ChunkMsg where
  fileId : String
  chunkIndex : Nat
  totalChunks : Nat
  data : List Nat
  checksum : String
  deriving Repr, DecidableEq

/-- The sender's chunk loop for one file: for each `chunkIndex` below
`totalChunks`, slice `[start, min(start + CHUNK_SIZE, size))` out of the file
and attach `generateChecksum` of the slice. -/
def senderChunkMessages (fid : String) (file : List Nat) : List ChunkMsg :=
  (List.range (totalChunksOf file.length)).map (fun i =>
    let start := i * CHUNK_SIZE
    let stop := min (start + CHUNK_SIZE) file.length
    let chunkData := (file.drop start).take (stop - start)
    { fileId := fid, chunkIndex := i, totalChunks := totalChunksOf file.length,
      data := chunkData, checksum := generateChecksum chunkData })

/-- Per-file transfer status. -/
inductive Status
  | pending
  | transferring
  | completed
  | failed
  | cancelled
  deriving Repr, DecidableEq

/-- Batch-level status. -/
inductive BatchStatus
  | idle
  | transferring
  | completed
  | failed
  | cancelled
  deriving Repr, DecidableEq

structure TransferProgress where
  fileId : String
  fileName : String
  fileSize : Nat
  bytesTransferred : Nat
  status : Status
  error : Option String
  deriving Repr, DecidableEq

structure BatchProgress where
  totalFiles : Nat
  completedFiles : Nat
  totalBytes : Nat
  bytesTransferred : Nat
  currentFileId : Option String
  status : BatchStatus
  deriving Repr, DecidableEq

/-- `sanitizeFileName` on `String`s. -/
def sanitizeFileNameS (s : String) : String := String.mk (sanitizeFileName s.data)

/-- JS sparse-array assignment `arr[i] = a`: writing past the end fills the
gap with holes. -/
def setAt : List (Option α) → Nat → α → List (Option α)
  | [], 0, a => [some a]
  | [], n + 1, a => none :: setAt [] n a
  | _ :: xs, 0, a => some a :: xs
  | x :: xs, n + 1, a => x :: setAt xs n a

/-- `chunks.reduce((sum, c) => sum + (c?.byteLength || 0), 0)`. -/
def chunkBytes (l : List (Option (List Nat))) : Nat :=
  (l.map (fun o => match o with | some d => d.length | none => 0)).sum

/-- The receiver's whole-buffer byte count (`forEach` over the chunk map). -/
def totalReceivedBytes (m : List (String × List (Option (List Nat)))) : Nat :=
  (m.map (fun kv => chunkBytes kv.2)).sum

/-- `updateFileProgress`: merge into an existing entry, no-op when absent. -/
def alUpdate : List (String × α) → String → (α → α) → List (String × α)
  | [], _, _ => []
  | (k', v) :: rest, k, f =>
    if k' = k then (k, f v) :: rest else (k', v) :: alUpdate rest k f

/-- The transfer messages `useFileTransfer.handleMessage` dispatches on. -/
inductive PeerMsg
  | batch_start (totalFiles totalSize : Nat)
  | file_metadata (m : FileMeta)
  | file_chunk (fileId : String) (chunkIndex totalChunks : Nat)
      (data : List Nat) (checksum : String)
  | file_complete (fileId : String) (finalHash : String)
  | batch_complete
  | file_error (fileId : String) (error : String)
  deriving Repr, DecidableEq

/-- The receiver-side state of `useFileTransfer`: React state
(`fileProgress`, `batchProgress`, `isReceiving`), the chunk and metadata
refs, and the externally observable callback streams (`onError` strings,
`onFileReceived` deliveries, `onTransferComplete` count). -/
structure RcvState where
  isReceiving : Bool
  fileProgress : List (String × TransferProgress)
  batch : BatchProgress
  receivedChunks : List (String × List (Option (List Nat)))
  fileMetadata : List (String × FileMeta)
  errors : List String
  received : List (FileMeta × List Nat)
  transferCompleteEvents : Nat
  deriving Repr, DecidableEq

/-- One step of `useFileTransfer.handleMessage` on the receiving side.  The
`file_chunk` case's checksum promise resolves before the next message is
handled (single-threaded event loop, ordered channel), so it is processed
inline. -/
def rcvStep (st : RcvState) (msg : PeerMsg) : RcvState :=
  match msg with
  | .batch_start totalFiles totalSize =>
    { st with
      isReceiving := true
      receivedChunks := []
      fileMetadata := []
      batch := ⟨totalFiles, 0, totalSize, 0, none, .transferring⟩ }
  | .file_metadata m =>
    let sanitized : FileMeta := { m with
      name := sanitizeFileNameS m.name
      sanitizedName := sanitizeFileNameS m.sanitizedName }
    { st with
      fileMetadata := alInsert st.fileMetadata m.id sanitized
      receivedChunks := alInsert st.receivedChunks m.id []
      fileProgress := alInsert st.fileProgress m.id
        ⟨m.id, sanitized.sanitizedName, m.size, 0, .transferring, none⟩
      batch := { st.batch with currentFileId := some m.id } }
  | .file_chunk fid idx _total data checksum =>
    match alLookup st.receivedChunks fid with
    | none => { st with errors := st.errors ++ ["Received chunk for unknown file"] }
    | some chunks =>
      if verifyChecksum data checksum then
        let chunks' := setAt chunks idx data
        let st1 := { st with receivedChunks := alInsert st.receivedChunks fid chunks' }
        let bytes := chunkBytes chunks'
        match alLookup st1.fileMetadata fid with
        | none => st1
        | some _ =>
          let st2 := { st1 with
            fileProgress := alUpdate st1.fileProgress fid
              (fun p => { p with bytesTransferred := bytes }) }
          { st2 with batch := { st2.batch with
              bytesTransferred := totalReceivedBytes st2.receivedChunks } }
      else
        { st with errors := st.errors ++ ["File corruption detected"] }
  | .file_complete fid _finalHash =>
    match alLookup st.receivedChunks fid, alLookup st.fileMetadata fid with
    | some chunks, some meta =>
      let blob := (chunks.filterMap id).flatten
      let st1 := { st with
        fileProgress := alUpdate st.fileProgress fid
          (fun p => { p with status := .completed, bytesTransferred := meta.size }) }
      let st2 := { st1 with
        batch := { st1.batch with completedFiles := st1.batch.completedFiles + 1 } }
      { st2 with
        receivedChunks := alErase st2.receivedChunks fid
        received := st2.received ++ [(meta, blob)] }
    | _, _ => { st with errors := st.errors ++ ["File completion for unknown file"] }
  | .batch_complete =>
    { st with
      batch := { st.batch with status := .completed }
      isReceiving := false
      fileMetadata := []
      transferCompleteEvents := st.transferCompleteEvents + 1 }
  | .file_error fid err =>
    { st with
      fileProgress := alUpdate st.fileProgress fid
        (fun p => { p with status := .failed, error := some err })
      errors := st.errors ++ [err] }

/-- The receiver state before any message (the hook's initial values). -/
def initialRcvState : RcvState :=
  ⟨false, [], ⟨0, 0, 0, 0, none, .idle⟩, [], [], [], [], 0⟩

/-- Process a message sequence from the initial state. -/
def runReceiver (msgs : List PeerMsg) : RcvState :=
  msgs.foldl rcvStep initialRcvState

/-- Sum of `bytesTransferred` over all per-file progress entries. -/
def sumFileBytes (fp : List (String × TransferProgress)) : Nat :=
  (fp.map (fun kv => kv.2.bytesTransferred)).sum

example :
    (runReceiver
      [.batch_start 1 4,
       .file_metadata ⟨"f1", "a.bin", "a.bin", 4, 1⟩,
       .file_chunk "f1" 0 1 [9, 2, 3, 4] (generateChecksum [1, 2, 3, 4]),
       .file_complete "f1" ""]).errors = ["File corruption detected"] := by decide

example :
    (alLookup (runReceiver
      [.batch_start 1 4,
       .file_metadata ⟨"f1", "a.bin", "a.bin", 4, 1⟩,
       .file_chunk "f1" 0 1 [9, 2, 3, 4] (generateChecksum [1, 2, 3, 4]),
       .file_complete "f1" ""]).fileProgress "f1").map
        TransferProgress.status = some .completed := by decide

example :
    (runReceiver
      [.batch_start 2 7,
       .file_metadata ⟨"fa", "a", "a", 4, 1⟩,
       .file_chunk "fa" 0 1 [1, 2, 3, 4] (generateChecksum [1, 2, 3, 4]),
       .file_complete "fa" "",
       .file_metadata ⟨"fb", "b", "b", 3, 1⟩,
       .file_chunk "fb" 0 1 [5, 6, 7] (generateChecksum [5, 6, 7])]).batch.bytesTransferred
      = 3 := by decide

example :
    sumFileBytes (runReceiver
      [.batch_start 2 7,
       .file_metadata ⟨"fa", "a", "a", 4, 1⟩,
       .file_chunk "fa" 0 1 [1, 2, 3, 4] (generateChecksum [1, 2, 3, 4]),
       .file_complete "fa" "",
       .file_metadata ⟨"fb", "b", "b", 3, 1⟩,
       .file_chunk "fb" 0 1 [5, 6, 7] (generateChecksum [5, 6, 7])]).fileProgress
      = 7 := by decide

/-! ## Supporting lemmas for sanitizeFileName -/

theorem mem_jsSliceZero {c : α} {l : List α} {e : Int} (h : c ∈ jsSliceZero l e) :
    c ∈ l := by
  unfold jsSliceZero at h
  exact List.take_subset _ _ h

theorem mem_sanitizeTruncate {c : Char} {l : List Char}
    (h : c ∈ sanitizeTruncate l) : c ∈ l := by
  unfold sanitizeTruncate at h
  split at h
  · split at h
    · rcases List.mem_append.mp h with h' | h'
      · exact mem_jsSliceZero h'
      · exact List.drop_subset _ _ h'
    · exact List.take_subset _ _ h
  · exact h

theorem mem_sanitizeBeforeTruncate {c : Char} {name : List Char}
    (h : c ∈ sanitizeBeforeTruncate name) :
    isPathSep c = false ∧ isXssChar c = false ∧ isCtrlChar c = false := by
  unfold sanitizeBeforeTruncate at h
  have h3 := List.mem_filter.mp h
  have h2 := List.mem_filter.mp h3.1
  have h1 := List.mem_filter.mp h2.1
  refine ⟨?_, ?_, ?_⟩
  · simpa using h1.2
  · simpa using h2.2
  · simpa using h3.2

theorem length_sanitizeTruncate {l : List Char}
    (h : l.length - (lastDotIdx l).toNat ≤ 255) :
    (sanitizeTruncate l).length ≤ 255 := by
  unfold sanitizeTruncate jsSliceZero
  split
  · split
    · simp only [List.length_append, List.length_take, List.length_drop]
      have hnn : ¬ ((255 : Int) -
          ((l.length - (lastDotIdx l).toNat : Nat) : Int) < 0) := by omega
      rw [if_neg hnn]
      omega
    · simp only [List.length_take]; omega
  · omega

/-- C7: the claim that a sanitized name has no path separators, no `".."`,
no control characters, and length at most 255 fails twice on the code:
`"./."` sanitizes to `".."` (the `".."`-removal runs before the separators
are stripped, so stripping can rejoin dots), and a name whose extension —
the suffix from the last dot — is longer than 255 characters defeats the
length cap, because the negative slice bound wraps around JS-style. -/
theorem secureTransfer_C7_counterexample :
    sanitizeFileName "./.".data = ['.', '.'] ∧
    255 < (sanitizeFileName ('x' :: '.' :: List.replicate 260 'a')).length := by
  constructor
  · decide
  · decide

/-- C7 (amended): every sanitized file name is free of path separators,
markup specials and control characters and is never empty; its length is at
most 255 whenever the extension retained by the cap (the suffix from the
last dot of the pre-cap string) is itself at most 255 characters.  The
`".."`-freedom of the original claim is dropped (see the counterexample). -/
theorem secureTransfer_C7_sanitized_name_safe (name : List Char) :
    (∀ c ∈ sanitizeFileName name, isPathSep c = false) ∧
    (∀ c ∈ sanitizeFileName name, isXssChar c = false) ∧
    (∀ c ∈ sanitizeFileName name, isCtrlChar c = false) ∧
    sanitizeFileName name ≠ [] ∧
    ((sanitizeBeforeTruncate name).length -
        (lastDotIdx (sanitizeBeforeTruncate name)).toNat ≤ 255 →
      (sanitizeFileName name).length ≤ 255) := by
  unfold sanitizeFileName
  split
  · refine ⟨?_, ?_, ?_, ?_, ?_⟩
    · decide
    · decide
    · decide
    · decide
    · intro _; decide
  · rename_i hne
    refine ⟨?_, ?_, ?_, ?_, ?_⟩
    · intro c hc
      exact (mem_sanitizeBeforeTruncate (mem_sanitizeTruncate hc)).1
    · intro c hc
      exact (mem_sanitizeBeforeTruncate (mem_sanitizeTruncate hc)).2.1
    · intro c hc
      exact (mem_sanitizeBeforeTruncate (mem_sanitizeTruncate hc)).2.2
    · intro hempty
      rw [hempty] at hne
      simp at hne
    · exact length_sanitizeTruncate

/-- Witness for C7 (amended) at the concrete name `"a.txt"`. -/
theorem secureTransfer_C7_sanitized_name_safe_witness :
    (∀ c ∈ sanitizeFileName "a.txt".data, isPathSep c = false) ∧
    sanitizeFileName "a.txt".data ≠ [] ∧
    (sanitizeFileName "a.txt".data).length ≤ 255 := by
  have h := secureTransfer_C7_sanitized_name_safe "a.txt".data
  exact ⟨h.1, h.2.2.2.1, h.2.2.2.2 (by decide)⟩

/-! ## Room-code lemmas and C8 -/

theorem roomCodeChar_mem (b : Nat) :
    ROOM_CODE_ALPHABET.getD (b % ROOM_CODE_ALPHABET.length) ' ' ∈
      ROOM_CODE_ALPHABET := by
  have hlt : b % ROOM_CODE_ALPHABET.length < ROOM_CODE_ALPHABET.length :=
    Nat.mod_lt _ (by decide)
  rw [List.getD_eq_getElem _ _ hlt]
  exact List.getElem_mem _

theorem filter_ne_dash_eq_self {l : List Char} (h : ∀ c ∈ l, c ≠ '-') :
    l.filter (fun c => c ≠ '-') = l :=
  List.filter_eq_self.mpr (fun a ha => by simpa using h a ha)

theorem filter_ne_dash_cons (l : List Char) :
    ('-' :: l).filter (fun c => c ≠ '-') = l.filter (fun c => c ≠ '-') := by
  simp

theorem map_toUpper_eq_self {l : List Char} (h : ∀ c ∈ l, Char.toUpper c = c) :
    l.map Char.toUpper = l := by
  calc l.map Char.toUpper = l.map id := List.map_congr_left h
  _ = l := List.map_id _

theorem normalize_generateSecureRoomCode (randomBytes : List Nat) :
    normalizeRoomCode (generateSecureRoomCode randomBytes) =
      randomBytes.map
        (fun b => ROOM_CODE_ALPHABET.getD (b % ROOM_CODE_ALPHABET.length) ' ') := by
  have hmem : ∀ c ∈ randomBytes.map
      (fun b => ROOM_CODE_ALPHABET.getD (b % ROOM_CODE_ALPHABET.length) ' '),
      c ∈ ROOM_CODE_ALPHABET := by
    intro c hc
    obtain ⟨b, _, rfl⟩ := List.mem_map.mp hc
    exact roomCodeChar_mem b
  have hne : ∀ c ∈ randomBytes.map
      (fun b => ROOM_CODE_ALPHABET.getD (b % ROOM_CODE_ALPHABET.length) ' '),
      c ≠ '-' := by
    intro c hc
    have halpha : ∀ x ∈ ROOM_CODE_ALPHABET, x ≠ '-' := by decide
    exact halpha c (hmem c hc)
  have hupper : ∀ c ∈ randomBytes.map
      (fun b => ROOM_CODE_ALPHABET.getD (b % ROOM_CODE_ALPHABET.length) ' '),
      Char.toUpper c = c := by
    intro c hc
    have halpha : ∀ x ∈ ROOM_CODE_ALPHABET, Char.toUpper x = x := by decide
    exact halpha c (hmem c hc)
  unfold normalizeRoomCode generateSecureRoomCode
  rw [List.filter_append, filter_ne_dash_cons,
    filter_ne_dash_eq_self (fun a ha => hne a (List.take_subset _ _ ha)),
    filter_ne_dash_eq_self (fun a ha => hne a (List.drop_subset _ _ ha)),
    List.take_append_drop,
    map_toUpper_eq_self hupper]

/-- C8: the claim's "32-symbol alphabet" is off by one — the source
alphabet (base32 minus the five ambiguous glyphs 0, O, I, 1, L) has 31
characters. -/
theorem secureTransfer_C8_counterexample :
    ROOM_CODE_ALPHABET.length = 31 ∧ ¬ ROOM_CODE_ALPHABET.length = 32 := by
  decide

/-- C8 (amended): a room code generated from `ROOM_CODE_LENGTH` random bytes
is, after dash-stripping and uppercasing, exactly 8 characters, each drawn
from the 31-symbol alphabet, which excludes the ambiguous glyphs. -/
theorem secureTransfer_C8_room_code_format (randomBytes : List Nat)
    (h : randomBytes.length = ROOM_CODE_LENGTH) :
    (normalizeRoomCode (generateSecureRoomCode randomBytes)).length = 8 ∧
    (∀ c ∈ normalizeRoomCode (generateSecureRoomCode randomBytes),
      c ∈ ROOM_CODE_ALPHABET) ∧
    ROOM_CODE_ALPHABET.length = 31 ∧
    '0' ∉ ROOM_CODE_ALPHABET ∧ 'O' ∉ ROOM_CODE_ALPHABET ∧
    'I' ∉ ROOM_CODE_ALPHABET ∧ '1' ∉ ROOM_CODE_ALPHABET ∧
    'L' ∉ ROOM_CODE_ALPHABET := by
  rw [normalize_generateSecureRoomCode]
  refine ⟨?_, ?_, by decide, by decide, by decide, by decide, by decide, by decide⟩
  · rw [List.length_map, h]; rfl
  · intro c hc
    obtain ⟨b, _, rfl⟩ := List.mem_map.mp hc
    exact roomCodeChar_mem b

/-- Witness for C8 (amended) at a concrete byte array. -/
theorem secureTransfer_C8_room_code_format_witness :
    ([0, 1, 2, 3, 4, 5, 6, 7] : List Nat).length = ROOM_CODE_LENGTH ∧
    (normalizeRoomCode (generateSecureRoomCode [0, 1, 2, 3, 4, 5, 6, 7])).length = 8 :=
  ⟨by decide,
    (secureTransfer_C8_room_code_format [0, 1, 2, 3, 4, 5, 6, 7] (by decide)).1⟩

/-! ## Digest shape lemmas and C9 -/

theorem foldl_sha256Block_length (blocks : List (List Nat)) :
    ∀ init : List Nat, init.length = 8 →
      (blocks.foldl sha256Block init).length = 8 := by
  induction blocks with
  | nil => intro init h; simpa using h
  | cons b rest ih =>
    intro init _
    exact ih (sha256Block init b) rfl

theorem length_flatten_map_const (f : α → List β) (k : Nat)
    (hf : ∀ a, (f a).length = k) (l : List α) :
    ((l.map f).flatten).length = k * l.length := by
  induction l with
  | nil => simp
  | cons a t ih =>
    simp only [List.map_cons, List.flatten_cons, List.length_append, ih, hf,
      List.length_cons, Nat.mul_succ]
    omega

theorem sha256_length (msg : List Nat) : (sha256 msg).length = 32 := by
  unfold sha256
  rw [length_flatten_map_const wordToBytes 4 (fun w => rfl),
    foldl_sha256Block_length _ _ (by decide)]

theorem sha256_byte_lt (msg : List Nat) : ∀ b ∈ sha256 msg, b < 256 := by
  intro b hb
  unfold sha256 at hb
  obtain ⟨l, hl, hbl⟩ := List.mem_flatten.mp hb
  obtain ⟨w, _, rfl⟩ := List.mem_map.mp hl
  simp only [wordToBytes, List.mem_cons, List.not_mem_nil, or_false] at hbl
  rcases hbl with rfl | rfl | rfl | rfl
  all_goals exact Nat.mod_lt _ (by decide)

theorem hexDigitChar_mem : ∀ n, n < 16 → hexDigitChar n ∈ "0123456789abcdef".data := by
  decide

/-- C9: checksums round-trip — `verifyChecksum data (generateChecksum data)`
always holds — and `generateChecksum` is by construction the lowercase hex
of the first 8 bytes of the SHA-256 digest: exactly 16 characters, each a
lowercase hex digit. -/
theorem secureTransfer_C9_checksum_roundtrip (data : List Nat) :
    verifyChecksum data (generateChecksum data) = true ∧
    (generateChecksum data).length = 16 ∧
    (∀ c ∈ (generateChecksum data).data, c ∈ "0123456789abcdef".data) ∧
    generateChecksum data =
      String.mk ((((sha256 data).take 8).map jsHexByte).flatten) := by
  refine ⟨?_, ?_, ?_, rfl⟩
  · unfold verifyChecksum
    exact beq_self_eq_true _
  · show ((((sha256 data).take 8).map jsHexByte).flatten).length = 16
    rw [length_flatten_map_const jsHexByte 2 (fun b => rfl), List.length_take,
      sha256_length]
    decide
  · intro c hc
    have hc' : c ∈ (((sha256 data).take 8).map jsHexByte).flatten := hc
    obtain ⟨l, hl, hcl⟩ := List.mem_flatten.mp hc'
    obtain ⟨b, hb, rfl⟩ := List.mem_map.mp hl
    have hblt : b < 256 := sha256_byte_lt data b (List.take_subset _ _ hb)
    simp only [jsHexByte, List.mem_cons, List.not_mem_nil, or_false] at hcl
    rcases hcl with rfl | rfl
    · exact hexDigitChar_mem _ (by omega)
    · exact hexDigitChar_mem _ (Nat.mod_lt _ (by decide))

/-! ## C10: a fresh peer's first request is never denied as rate-limited -/

/-- C10: `isRateLimited` is false for a key with no stored entry, and the
host checks the limiter before recording the attempt, so a fresh peer's
first `connection_request` always reaches the approval provider and is
never answered with the rate-limit denial. -/
theorem secureTransfer_C10_fresh_peer_not_limited (st : HostConnState)
    (now : Nat) (peerId : String) (provider : ApprovalProvider)
    (hfresh : alLookup st.rateStore peerId = none) :
    (isRateLimited st.rateStore now peerId MAX_CONNECTION_ATTEMPTS
      CONNECTION_ATTEMPT_WINDOW_MS).1 = false ∧
    (hostConnectionRequest st now peerId provider).approvalInvoked = true ∧
    (hostConnectionRequest st now peerId provider).responses ≠
      [.connection_denied "Too many attempts"] := by
  have hlim : isRateLimited st.rateStore now peerId MAX_CONNECTION_ATTEMPTS
      CONNECTION_ATTEMPT_WINDOW_MS = (false, st.rateStore) := by
    unfold isRateLimited
    rw [hfresh]
  have hlim1 : (isRateLimited st.rateStore now peerId MAX_CONNECTION_ATTEMPTS
      CONNECTION_ATTEMPT_WINDOW_MS).1 = false := by rw [hlim]
  refine ⟨hlim1, ?_, ?_⟩
  · simp only [hostConnectionRequest, hlim1, Bool.false_eq_true, if_false]
    split
    · split <;> rfl
    · rfl
  · simp only [hostConnectionRequest, hlim1, Bool.false_eq_true, if_false]
    split
    · split <;> simp
    · simp

/-- Witness for C10 at the empty store. -/
theorem secureTransfer_C10_fresh_peer_not_limited_witness :
    (alLookup ([] : List (String × RateLimitEntry)) "peer-w" = none) ∧
    (hostConnectionRequest ⟨.idle, none, [], none, none, false, false⟩ 0 "peer-w"
      ⟨0, true⟩).approvalInvoked = true :=
  ⟨by decide,
    (secureTransfer_C10_fresh_peer_not_limited
      ⟨.idle, none, [], none, none, false, false⟩ 0 "peer-w" ⟨0, true⟩ rfl).2.1⟩

/-! ## C3: the 30-second approval timeout -/

/-- C3: the claim that the host auto-denies when the approval provider has
not resolved within 30 seconds is false of the code — `useWebRTC` awaits
the callback with no timeout.  A provider resolving `true` after 40000 ms
(past `APPROVAL_TIMEOUT_MS` = 30000) is still approved and the host
transitions to `connected`. -/
theorem secureTransfer_C3_counterexample :
    APPROVAL_TIMEOUT_MS < 40000 ∧
    (hostConnectionRequest ⟨.idle, none, [], none, none, false, false⟩ 0 "peer-a"
      ⟨40000, true⟩).responses = [.connection_approved] ∧
    (hostConnectionRequest ⟨.idle, none, [], none, none, false, false⟩ 0 "peer-a"
      ⟨40000, true⟩).state.connState = .connected := by
  decide

/-- C3 (amended): the host applies no timeout of its own — its replies and
resulting state depend only on the provider's decision, not on when it
resolves.  The 30-second auto-deny is implemented by the repository's
approval UI: the modal countdown expires after `APPROVAL_TIMEOUT_MS / 1000`
one-second ticks (and not before), whereupon `onDeny` resolves the provider
with `false`; composed with the host handler, an unattended request is
answered `connection_denied` and the host does not transition to
`connected`. -/
theorem secureTransfer_C3_timeout_in_provider (st : HostConnState) (now : Nat)
    (peerId : String) (d1 d2 : Nat) (dec : Bool)
    (hfree : (isRateLimited st.rateStore now peerId MAX_CONNECTION_ATTEMPTS
      CONNECTION_ATTEMPT_WINDOW_MS).1 = false) :
    ((hostConnectionRequest st now peerId ⟨d1, dec⟩).responses =
        (hostConnectionRequest st now peerId ⟨d2, dec⟩).responses ∧
      (hostConnectionRequest st now peerId ⟨d1, dec⟩).state.connState =
        (hostConnectionRequest st now peerId ⟨d2, dec⟩).state.connState) ∧
    ((modalStateAfter (APPROVAL_TIMEOUT_MS / 1000)).2 = true ∧
      (∀ k < APPROVAL_TIMEOUT_MS / 1000, (modalStateAfter k).2 = false) ∧
      modalUnattendedProvider.resolveAfterMs = APPROVAL_TIMEOUT_MS) ∧
    ((hostConnectionRequest st now peerId modalUnattendedProvider).responses =
        [.connection_denied "Connection denied"] ∧
      (hostConnectionRequest st now peerId modalUnattendedProvider).state.connState
        = .idle) := by
  refine ⟨?_, ⟨by decide, by decide, by decide⟩, ?_⟩
  · cases dec <;> cases hp : st.pinHash <;>
      simp [hostConnectionRequest, hfree, hp]
  · cases hp : st.pinHash <;>
      simp [hostConnectionRequest, modalUnattendedProvider, hfree, hp]

/-- Witness for C3 (amended): the empty store passes the rate limiter, and
the unattended modal's resolution leads to denial. -/
theorem secureTransfer_C3_timeout_in_provider_witness :
    ((isRateLimited ([] : List (String × RateLimitEntry)) 0 "pc"
      MAX_CONNECTION_ATTEMPTS CONNECTION_ATTEMPT_WINDOW_MS).1 = false) ∧
    ((hostConnectionRequest ⟨.idle, none, [], none, none, false, false⟩ 0 "pc"
        modalUnattendedProvider).responses =
        [.connection_denied "Connection denied"] ∧
      (hostConnectionRequest ⟨.idle, none, [], none, none, false, false⟩ 0 "pc"
        modalUnattendedProvider).state.connState = .idle) :=
  ⟨by decide,
    (secureTransfer_C3_timeout_in_provider
      ⟨.idle, none, [], none, none, false, false⟩ 0 "pc" 0 1 true (by decide)).2.2⟩

/-! ## C6: PIN attempt budget -/

/-- C6: the claim fails as stated over arbitrary `pin_attempt` sequences —
the host's budget check reads the client-supplied `attemptNumber` rather
than counting failures itself, so three mismatched attempts that each carry
`attemptNumber` 1 draw three `pin_invalid` replies, no `connection_denied`,
and no teardown. -/
theorem secureTransfer_C6_counterexample :
    hostPinFold (some "stored-hash")
        [("wrong-hash", 1), ("wrong-hash", 1), ("wrong-hash", 1)]
        .awaiting_approval =
      (.awaiting_approval,
        [.pin_invalid 2, .pin_invalid 2, .pin_invalid 2], false) := by
  decide

/-- C6 (amended): the host denies and tears the session down exactly when a
failed attempt's own `attemptNumber` reaches `MAX_PIN_ATTEMPTS`; with the
repository client's numbering (1 on the first attempt, then
`MAX_PIN_ATTEMPTS - attemptsRemaining + 1` after each `pin_invalid`), three
cumulative mismatches produce `pin_invalid 2`, `pin_invalid 1`, then
`connection_denied` with teardown, and the user is prompted exactly three
times — a fourth prompt never occurs. -/
theorem secureTransfer_C6_pin_attempts (storedHash : String) (pins : List String)
    (hwrong : ∀ p ∈ pins, p ≠ storedHash) (hlen : 3 ≤ pins.length)
    (hashedPin : String) (n : Nat) (hmis : hashedPin ≠ storedHash)
    (hn : MAX_PIN_ATTEMPTS ≤ n) :
    ((hostPinAttempt (some storedHash) .awaiting_approval hashedPin n).responses =
        [.connection_denied "Too many PIN attempts"] ∧
      (hostPinAttempt (some storedHash) .awaiting_approval hashedPin n).tornDown =
        true) ∧
    pinSession (some storedHash) pins =
      (3, [.pin_invalid 2, .pin_invalid 1,
        .connection_denied "Too many PIN attempts"], true) := by
  constructor
  · have hne : ¬ (some storedHash = some hashedPin) := by
      simp [Ne.symm hmis]
    constructor <;> simp [hostPinAttempt, hne, hn]
  · rcases pins with _ | ⟨p1, pins⟩
    · simp at hlen
    rcases pins with _ | ⟨p2, pins⟩
    · simp at hlen
    rcases pins with _ | ⟨p3, pins⟩
    · simp at hlen
    have e1 : ¬ (some storedHash = some p1) := by
      simp [Ne.symm (hwrong p1 (by simp))]
    have e2 : ¬ (some storedHash = some p2) := by
      simp [Ne.symm (hwrong p2 (by simp))]
    have e3 : ¬ (some storedHash = some p3) := by
      simp [Ne.symm (hwrong p3 (by simp))]
    simp [pinSession, pinSessionGo, hostPinAttempt, e1, e2, e3,
      MAX_PIN_ATTEMPTS]

/-- Witness for C6 (amended) at concrete hashes. -/
theorem secureTransfer_C6_pin_attempts_witness :
    (∀ p ∈ (["ha", "hb", "hc"] : List String), p ≠ "hs") ∧
    pinSession (some "hs") ["ha", "hb", "hc"] =
      (3, [.pin_invalid 2, .pin_invalid 1,
        .connection_denied "Too many PIN attempts"], true) :=
  ⟨by decide,
    (secureTransfer_C6_pin_attempts "hs" ["ha", "hb", "hc"] (by decide)
      (by decide) "hx" 3 (by decide) (by decide)).2⟩

/-! ## C5: rate limiting after three attempts -/

theorem alLookup_alInsert (s : List (String × α)) (k : String) (v : α) :
    alLookup (alInsert s k v) k = some v := by
  induction s with
  | nil => simp [alInsert, alLookup]
  | cons hd t ih =>
    obtain ⟨k', v'⟩ := hd
    by_cases hk : k' = k
    · subst hk
      simp [alInsert, alLookup]
    · simp [alInsert, alLookup, hk, ih]

theorem isRateLimited_none (store : List (String × RateLimitEntry))
    (now : Nat) (key : String) (maxA winMs : Nat)
    (h : alLookup store key = none) :
    isRateLimited store now key maxA winMs = (false, store) := by
  unfold isRateLimited
  rw [h]

theorem recordAttempt_none (store : List (String × RateLimitEntry))
    (now : Nat) (key : String) (maxA winMs blockMs : Nat)
    (h : alLookup store key = none) :
    recordAttempt store now key maxA winMs blockMs =
      (⟨1, now, now, false, none⟩,
        alInsert store key ⟨1, now, now, false, none⟩) := by
  unfold recordAttempt
  rw [h]

theorem isRateLimited_open (store : List (String × RateLimitEntry))
    (now : Nat) (key : String) (maxA winMs : Nat) (e : RateLimitEntry)
    (h : alLookup store key = some e) (hb : e.blocked = false)
    (hwin : ¬ (winMs < now - e.firstAttempt))
    (hatt : ¬ (maxA ≤ e.attempts)) :
    isRateLimited store now key maxA winMs = (false, store) := by
  unfold isRateLimited
  rw [h]
  simp [hb, hwin, hatt]

theorem recordAttempt_incr (store : List (String × RateLimitEntry))
    (now : Nat) (key : String) (maxA winMs blockMs : Nat) (e : RateLimitEntry)
    (h : alLookup store key = some e)
    (hwin : ¬ (winMs < now - e.firstAttempt))
    (hatt : ¬ (maxA ≤ e.attempts + 1)) :
    recordAttempt store now key maxA winMs blockMs =
      ({ e with attempts := e.attempts + 1, lastAttempt := now },
        alInsert store key { e with attempts := e.attempts + 1, lastAttempt := now }) := by
  unfold recordAttempt
  rw [h]
  simp [hwin, hatt]

theorem recordAttempt_block (store : List (String × RateLimitEntry))
    (now : Nat) (key : String) (maxA winMs blockMs : Nat) (e : RateLimitEntry)
    (h : alLookup store key = some e)
    (hwin : ¬ (winMs < now - e.firstAttempt))
    (hatt : maxA ≤ e.attempts + 1) :
    recordAttempt store now key maxA winMs blockMs =
      ({ e with
          attempts := e.attempts + 1
          lastAttempt := now
          blocked := true
          blockedUntil := some (now + blockMs) },
        alInsert store key
          { e with
            attempts := e.attempts + 1
            lastAttempt := now
            blocked := true
            blockedUntil := some (now + blockMs) }) := by
  unfold recordAttempt
  rw [h]
  simp [hwin, hatt]

theorem isRateLimited_blocked (store : List (String × RateLimitEntry))
    (key : String) (t t1 t3 la : Nat)
    (hlook : alLookup store key = some ⟨3, t1, la, true, some (t3 + 5 * 60 * 1000)⟩)
    (ht : t ≤ t1 + CONNECTION_ATTEMPT_WINDOW_MS) :
    isRateLimited store t key MAX_CONNECTION_ATTEMPTS CONNECTION_ATTEMPT_WINDOW_MS
      = (true, store) := by
  unfold isRateLimited
  rw [hlook]
  by_cases hb : t < t3 + 5 * 60 * 1000
  · simp [hb]
  · have h1 : ¬ (CONNECTION_ATTEMPT_WINDOW_MS < t - t1) := by omega
    simp [hb, h1, MAX_CONNECTION_ATTEMPTS]

theorem hostConnectionRequest_denied_step (st : HostConnState) (t : Nat)
    (key : String) (prov : ApprovalProvider) (e : RateLimitEntry)
    (store2 : List (String × RateLimitEntry))
    (hlim : isRateLimited st.rateStore t key MAX_CONNECTION_ATTEMPTS
      CONNECTION_ATTEMPT_WINDOW_MS = (false, st.rateStore))
    (hrec : recordAttempt st.rateStore t key MAX_CONNECTION_ATTEMPTS
      CONNECTION_ATTEMPT_WINDOW_MS (5 * 60 * 1000) = (e, store2))
    (hdec : prov.decision = false) :
    hostConnectionRequest st t key prov =
      { responses := [.connection_denied "Connection denied"],
        state := { st with rateStore := store2, connState := .idle },
        approvalInvoked := true } := by
  have h1 : (isRateLimited st.rateStore t key MAX_CONNECTION_ATTEMPTS
      CONNECTION_ATTEMPT_WINDOW_MS).1 = false := by rw [hlim]
  have h2 : (isRateLimited st.rateStore t key MAX_CONNECTION_ATTEMPTS
      CONNECTION_ATTEMPT_WINDOW_MS).2 = st.rateStore := by rw [hlim]
  simp [hostConnectionRequest, h1, h2, hrec, hdec]

theorem hostConnectionRequest_limited_step (st : HostConnState) (t : Nat)
    (key : String) (prov : ApprovalProvider)
    (hlim : isRateLimited st.rateStore t key MAX_CONNECTION_ATTEMPTS
      CONNECTION_ATTEMPT_WINDOW_MS = (true, st.rateStore)) :
    hostConnectionRequest st t key prov =
      { responses := [.connection_denied "Too many attempts"],
        state := st, approvalInvoked := false } := by
  have h1 : (isRateLimited st.rateStore t key MAX_CONNECTION_ATTEMPTS
      CONNECTION_ATTEMPT_WINDOW_MS).1 = true := by rw [hlim]
  have h2 : (isRateLimited st.rateStore t key MAX_CONNECTION_ATTEMPTS
      CONNECTION_ATTEMPT_WINDOW_MS).2 = st.rateStore := by rw [hlim]
  simp [hostConnectionRequest, h1, h2]

theorem hostTrace_all_denied (key : String) (t1 t3 la : Nat)
    (later : List (Nat × ApprovalProvider)) :
    ∀ st : HostConnState,
      alLookup st.rateStore key = some ⟨3, t1, la, true, some (t3 + 5 * 60 * 1000)⟩ →
      (∀ e ∈ later, e.1 ≤ t1 + CONNECTION_ATTEMPT_WINDOW_MS) →
      ∀ r ∈ (hostConnectionTrace st (later.map (fun e => (e.1, key, e.2)))).2,
        r.responses = [.connection_denied "Too many attempts"] ∧
          r.approvalInvoked = false := by
  induction later with
  | nil =>
    intro st _ _ r hr
    simp [hostConnectionTrace] at hr
  | cons ev rest ih =>
    intro st hlook hlater r hr
    have hstep := hostConnectionRequest_limited_step st ev.1 key ev.2
      (isRateLimited_blocked st.rateStore key ev.1 t1 t3 la hlook
        (hlater ev (by simp)))
    simp only [List.map_cons, hostConnectionTrace, hstep] at hr
    rcases List.mem_cons.mp hr with rfl | hr'
    · exact ⟨rfl, rfl⟩
    · exact ih st hlook (fun e he => hlater e (by simp [he])) r hr'

/-- C5: once a peer has made three (unapproved) connection attempts inside
the five-minute window — the limiter is cleared only on approval — every
further `connection_request` from it inside that window is answered
`connection_denied` ("Too many attempts") without the approval provider
ever being invoked. -/
theorem secureTransfer_C5_rate_limit_after_three (st : HostConnState)
    (key : String) (t1 t2 t3 : Nat) (p1 p2 p3 : ApprovalProvider)
    (hfresh : alLookup st.rateStore key = none)
    (h12 : t1 ≤ t2) (h23 : t2 ≤ t3)
    (hw : t3 ≤ t1 + CONNECTION_ATTEMPT_WINDOW_MS)
    (hd1 : p1.decision = false) (hd2 : p2.decision = false)
    (hd3 : p3.decision = false)
    (later : List (Nat × ApprovalProvider))
    (hlater : ∀ e ∈ later, e.1 ≤ t1 + CONNECTION_ATTEMPT_WINDOW_MS) :
    ∀ r ∈ (hostConnectionTrace
        (hostConnectionTrace st [(t1, key, p1), (t2, key, p2), (t3, key, p3)]).1
        (later.map (fun e => (e.1, key, e.2)))).2,
      r.responses = [.connection_denied "Too many attempts"] ∧
        r.approvalInvoked = false := by
  have hwin2 : ¬ (CONNECTION_ATTEMPT_WINDOW_MS < t2 - t1) := by omega
  have hwin3 : ¬ (CONNECTION_ATTEMPT_WINDOW_MS < t3 - t1) := by omega
  have hA1 : ¬ (MAX_CONNECTION_ATTEMPTS ≤ 1) := by decide
  have hA2 : ¬ (MAX_CONNECTION_ATTEMPTS ≤ 2) := by decide
  have hA3 : MAX_CONNECTION_ATTEMPTS ≤ 3 := by decide
  have s1 := hostConnectionRequest_denied_step st t1 key p1 _ _
    (isRateLimited_none st.rateStore t1 key _ _ hfresh)
    (recordAttempt_none st.rateStore t1 key _ _ _ hfresh) hd1
  have r2 : recordAttempt (alInsert st.rateStore key ⟨1, t1, t1, false, none⟩)
      t2 key MAX_CONNECTION_ATTEMPTS CONNECTION_ATTEMPT_WINDOW_MS (5 * 60 * 1000) =
      (⟨2, t1, t2, false, none⟩,
        alInsert (alInsert st.rateStore key ⟨1, t1, t1, false, none⟩) key
          ⟨2, t1, t2, false, none⟩) := by
    rw [recordAttempt_incr _ _ _ _ _ _ ⟨1, t1, t1, false, none⟩
      (alLookup_alInsert _ _ _) hwin2 hA2]
  have s2 := hostConnectionRequest_denied_step
    { st with
      rateStore := alInsert st.rateStore key ⟨1, t1, t1, false, none⟩
      connState := .idle } t2 key p2 _ _
    (isRateLimited_open _ t2 key _ _ ⟨1, t1, t1, false, none⟩
      (alLookup_alInsert _ _ _) rfl hwin2 hA1)
    r2 hd2
  have r3 : recordAttempt
      (alInsert (alInsert st.rateStore key ⟨1, t1, t1, false, none⟩) key
        ⟨2, t1, t2, false, none⟩)
      t3 key MAX_CONNECTION_ATTEMPTS CONNECTION_ATTEMPT_WINDOW_MS (5 * 60 * 1000) =
      (⟨3, t1, t3, true, some (t3 + 5 * 60 * 1000)⟩,
        alInsert (alInsert (alInsert st.rateStore key ⟨1, t1, t1, false, none⟩) key
          ⟨2, t1, t2, false, none⟩) key
          ⟨3, t1, t3, true, some (t3 + 5 * 60 * 1000)⟩) := by
    rw [recordAttempt_block _ _ _ _ _ _ ⟨2, t1, t2, false, none⟩
      (alLookup_alInsert _ _ _) hwin3 hA3]
  have s3 := hostConnectionRequest_denied_step
    { st with
      rateStore := alInsert (alInsert st.rateStore key
        ⟨1, t1, t1, false, none⟩) key ⟨2, t1, t2, false, none⟩
      connState := .idle } t3 key p3 _ _
    (isRateLimited_open _ t3 key _ _ ⟨2, t1, t2, false, none⟩
      (alLookup_alInsert _ _ _) rfl hwin3 hA2)
    r3 hd3
  have htrace : (hostConnectionTrace st
      [(t1, key, p1), (t2, key, p2), (t3, key, p3)]).1 =
      { st with
        rateStore := alInsert (alInsert (alInsert st.rateStore key
          ⟨1, t1, t1, false, none⟩) key ⟨2, t1, t2, false, none⟩) key
          ⟨3, t1, t3, true, some (t3 + 5 * 60 * 1000)⟩
        connState := .idle } := by
    simp only [hostConnectionTrace, s1, s2, s3]
  rw [htrace]
  exact hostTrace_all_denied key t1 t3 t3 later _ (alLookup_alInsert _ _ _) hlater

/-- Witness for C5 at a concrete trace: a fresh peer denied three times at
time 0 is answered with the rate-limit denial, approval uninvoked, on a
fourth request at time 1 — even one whose provider would have approved. -/
theorem secureTransfer_C5_rate_limit_after_three_witness :
    ((hostConnectionTrace
        (hostConnectionTrace ⟨.idle, none, [], none, none, false, false⟩
          [(0, "pw", ⟨0, false⟩), (0, "pw", ⟨0, false⟩), (0, "pw", ⟨0, false⟩)]).1
        (([((1 : Nat), (⟨0, true⟩ : ApprovalProvider))]).map
          (fun e => (e.1, "pw", e.2)))).2.all
      (fun r => r.responses == [.connection_denied "Too many attempts"] &&
        r.approvalInvoked == false)) = true := by
  apply List.all_eq_true.mpr
  intro r hr
  have h := secureTransfer_C5_rate_limit_after_three
    ⟨.idle, none, [], none, none, false, false⟩ "pw" 0 0 0 ⟨0, false⟩ ⟨0, false⟩
    ⟨0, false⟩ rfl (by decide) (by decide) (by decide) rfl rfl rfl
    [((1 : Nat), (⟨0, true⟩ : ApprovalProvider))] (by decide) r hr
  simp [h.1, h.2]

/-! ## C1: a corrupted chunk still lets `file_complete` mark the file completed -/

/-- C1: delivery of a one-chunk file whose chunk payload was mutated in
transit (sender checksummed `[1, 2, 3, 4]`, receiver got `[9, 2, 3, 4]`).
The receiver does report the corruption error and refuses the chunk — but
the subsequent `file_complete` (which the sender always emits; it never
hears about receiver-side chunk errors) marks the very same file
`completed`, sets its `bytesTransferred` to the full size, and delivers an
empty assembly.  The claim's "never marked completed" half fails. -/
theorem secureTransfer_C1_corrupted_chunk_still_completed :
    generateChecksum [9, 2, 3, 4] ≠ generateChecksum [1, 2, 3, 4] ∧
    (runReceiver
      [.batch_start 1 4,
       .file_metadata ⟨"f1", "a.bin", "a.bin", 4, 1⟩,
       .file_chunk "f1" 0 1 [9, 2, 3, 4] (generateChecksum [1, 2, 3, 4]),
       .file_complete "f1" ""]).errors = ["File corruption detected"] ∧
    (alLookup (runReceiver
      [.batch_start 1 4,
       .file_metadata ⟨"f1", "a.bin", "a.bin", 4, 1⟩,
       .file_chunk "f1" 0 1 [9, 2, 3, 4] (generateChecksum [1, 2, 3, 4]),
       .file_complete "f1" ""]).fileProgress "f1").map TransferProgress.status =
      some .completed ∧
    (runReceiver
      [.batch_start 1 4,
       .file_metadata ⟨"f1", "a.bin", "a.bin", 4, 1⟩,
       .file_chunk "f1" 0 1 [9, 2, 3, 4] (generateChecksum [1, 2, 3, 4]),
       .file_complete "f1" ""]).received.map (fun p => p.2) = [[]] := by
  refine ⟨by decide, by decide, by decide, by decide⟩

/-! ## C2: batch bytes do not track the per-file sum -/

/-- C2: the invariant `sum(per-file bytesTransferred) =
BatchProgress.bytesTransferred` fails at the receiver's chunk events.
After a first file (4 bytes) completes — which releases its chunk buffer —
the arrival of a second file's 3-byte chunk recomputes the batch total from
the buffers alone: the per-file records sum to 7 while the batch records 3.
(The sender side is broken too: its running total subtracts the previous
per-file bytes read from a stale `fileProgress` snapshot, over-counting any
multi-chunk file.) -/
theorem secureTransfer_C2_batch_bytes_mismatch :
    sumFileBytes (runReceiver
      [.batch_start 2 7,
       .file_metadata ⟨"fa", "a", "a", 4, 1⟩,
       .file_chunk "fa" 0 1 [1, 2, 3, 4] (generateChecksum [1, 2, 3, 4]),
       .file_complete "fa" "",
       .file_metadata ⟨"fb", "b", "b", 3, 1⟩,
       .file_chunk "fb" 0 1 [5, 6, 7] (generateChecksum [5, 6, 7])]).fileProgress
      = 7 ∧
    (runReceiver
      [.batch_start 2 7,
       .file_metadata ⟨"fa", "a", "a", 4, 1⟩,
       .file_chunk "fa" 0 1 [1, 2, 3, 4] (generateChecksum [1, 2, 3, 4]),
       .file_complete "fa" "",
       .file_metadata ⟨"fb", "b", "b", 3, 1⟩,
       .file_chunk "fb" 0 1 [5, 6, 7] (generateChecksum [5, 6, 7])]).batch.bytesTransferred
      = 3 ∧
    (7 : Nat) ≠ 3 := by
  refine ⟨by decide, by decide, by decide⟩

/-! ## C4: chunking round-trip -/

theorem verify_generate (d : List Nat) :
    verifyChecksum d (generateChecksum d) = true := by
  unfold verifyChecksum
  exact beq_self_eq_true _

theorem setAt_length_append (l : List (Option α)) (a : α) :
    setAt l l.length a = l ++ [some a] := by
  induction l with
  | nil => rfl
  | cons x xs ih => simp [setAt, ih]

/-- The sender's JS slice `file.slice(start, min(start + CHUNK_SIZE, size))`
is just `take CHUNK_SIZE` of the dropped prefix. -/
theorem jsChunkData (file : List Nat) (i : Nat) :
    (file.drop (i * CHUNK_SIZE)).take
        (min (i * CHUNK_SIZE + CHUNK_SIZE) file.length - i * CHUNK_SIZE) =
      (file.drop (i * CHUNK_SIZE)).take CHUNK_SIZE := by
  rcases le_or_lt file.length (i * CHUNK_SIZE + CHUNK_SIZE) with h | h
  · rw [min_eq_right h,
      List.take_of_length_le (List.length_drop _ _).le,
      List.take_of_length_le (by rw [List.length_drop]; omega)]
  · rw [min_eq_left h.le]
    congr 1
    omega

theorem senderChunkMessages_eq (fid : String) (file : List Nat) :
    senderChunkMessages fid file =
      (List.range (totalChunksOf file.length)).map (fun i =>
        ⟨fid, i, totalChunksOf file.length,
          (file.drop (i * CHUNK_SIZE)).take CHUNK_SIZE,
          generateChecksum ((file.drop (i * CHUNK_SIZE)).take CHUNK_SIZE)⟩) := by
  unfold senderChunkMessages
  apply List.map_congr_left
  intro i _
  show (⟨fid, i, totalChunksOf file.length,
      (file.drop (i * CHUNK_SIZE)).take
        (min (i * CHUNK_SIZE + CHUNK_SIZE) file.length - i * CHUNK_SIZE),
      generateChecksum ((file.drop (i * CHUNK_SIZE)).take
        (min (i * CHUNK_SIZE + CHUNK_SIZE) file.length - i * CHUNK_SIZE))⟩ :
      ChunkMsg) = _
  rw [jsChunkData]

/-- Concatenating the `ceil(len / C)` consecutive `C`-sized slices of a list
restores the list. -/
theorem chunkJoin (C : Nat) (hC : 0 < C) :
    ∀ n (l : List Nat), n = ceilDiv l.length C →
      ((List.range n).map (fun i => (l.drop (i * C)).take C)).flatten = l := by
  intro n
  induction n with
  | zero =>
    intro l hn
    have hlen0 : l.length = 0 := by
      rcases Nat.eq_zero_or_pos l.length with h | h
      · exact h
      · exfalso
        unfold ceilDiv at hn
        have hpos : 0 < (l.length + C - 1) / C := Nat.div_pos (by omega) hC
        omega
    cases l with
    | nil => simp
    | cons a t => simp at hlen0
  | succ n ih =>
    intro l hn
    rw [List.range_succ_eq_map, List.map_cons, List.map_map, List.flatten_cons]
    have hmap : (List.range n).map ((fun i => (l.drop (i * C)).take C) ∘ Nat.succ) =
        (List.range n).map (fun i => ((l.drop C).drop (i * C)).take C) := by
      apply List.map_congr_left
      intro i _
      show (l.drop ((i + 1) * C)).take C = ((l.drop C).drop (i * C)).take C
      rw [List.drop_drop]
      congr 2
      ring
    rw [hmap]
    simp only [Nat.zero_mul, List.drop_zero]
    by_cases hle : l.length ≤ C
    · have hn0 : n = 0 := by
        unfold ceilDiv at hn
        have h2 : (l.length + C - 1) / C < 2 :=
          (Nat.div_lt_iff_lt_mul hC).mpr (by omega)
        omega
      subst hn0
      simp [List.take_of_length_le hle]
    · rw [ih (l.drop C) ?hcond, List.take_append_drop]
      case hcond =>
        unfold ceilDiv at hn ⊢
        rw [List.length_drop]
        have hstep : l.length + C - 1 = (l.length - 1) + C := by omega
        rw [hstep, Nat.add_div_right _ hC] at hn
        have h3 : l.length - C + C - 1 = l.length - 1 := by omega
        rw [h3]
        omega

/-- The receiver-side `file_chunk` messages for consecutive chunk payloads,
starting at index `j`. -/
def chunkMsgsFrom (fid : String) (n : Nat) : Nat → List (List Nat) → List PeerMsg
  | _, [] => []
  | j, d :: rest =>
    .file_chunk fid j n d (generateChecksum d) :: chunkMsgsFrom fid n (j + 1) rest

theorem chunkMsgsFrom_of_range' (fid : String) (n : Nat) (g : Nat → List Nat) :
    ∀ k j, (List.range' j k).map
        (fun i => PeerMsg.file_chunk fid i n (g i) (generateChecksum (g i))) =
      chunkMsgsFrom fid n j ((List.range' j k).map g) := by
  intro k
  induction k with
  | zero => intro j; rfl
  | succ k ih =>
    intro j
    rw [List.range'_succ, List.map_cons, List.map_cons, chunkMsgsFrom, ih]

/-- Folding the chunk messages for `datas` (indices continuing from the
buffer's length) appends exactly those payloads to the file's chunk buffer,
touching nothing else but the file's progress record and the batch. -/
theorem rcvFold_chunks (fid : String) (metaS : FileMeta) (n : Nat) :
    ∀ (datas : List (List Nat)) (j : Nat) (buf : List (List Nat))
      (prog : TransferProgress) (bt : BatchProgress), buf.length = j →
      ∃ prog2 bt2,
        List.foldl rcvStep
          ⟨true, [(fid, prog)], bt, [(fid, buf.map some)], [(fid, metaS)],
            [], [], 0⟩
          (chunkMsgsFrom fid n j datas) =
        ⟨true, [(fid, prog2)], bt2, [(fid, (buf ++ datas).map some)],
          [(fid, metaS)], [], [], 0⟩ := by
  intro datas
  induction datas with
  | nil =>
    intro j buf prog bt _
    exact ⟨prog, bt, by simp [chunkMsgsFrom]⟩
  | cons d rest ih =>
    intro j buf prog bt hj
    have hset : setAt (buf.map some) j d = (buf ++ [d]).map some := by
      rw [show j = (buf.map some).length from by simp [hj], setAt_length_append]
      simp
    have hstep : rcvStep
        ⟨true, [(fid, prog)], bt, [(fid, buf.map some)], [(fid, metaS)], [], [], 0⟩
        (.file_chunk fid j n d (generateChecksum d)) =
        ⟨true,
          [(fid, { prog with
            bytesTransferred := chunkBytes ((buf ++ [d]).map some) })],
          { bt with
            bytesTransferred := totalReceivedBytes [(fid, (buf ++ [d]).map some)] },
          [(fid, (buf ++ [d]).map some)], [(fid, metaS)], [], [], 0⟩ := by
      simp [rcvStep, alLookup, alInsert, alUpdate, verify_generate, hset]
    rw [chunkMsgsFrom, List.foldl_cons, hstep]
    obtain ⟨p2, b2, heq⟩ := ih (j + 1) (buf ++ [d]) _ _ (by simp [hj])
    refine ⟨p2, b2, ?_⟩
    rw [heq]
    simp

/-- C4: for any nonempty file, the sender emits exactly
`ceil(size / CHUNK_SIZE)` `file_chunk` messages whose indices are
`0, 1, …` in order (strictly increasing), each carrying the next
`CHUNK_SIZE`-byte slice; and a receiver that processes the whole exchange
delivers on `file_complete` a byte list identical to the source file, with
the file marked completed. -/
theorem secureTransfer_C4_chunk_roundtrip (fid name sanitized finalHash : String)
    (file : List Nat) (hpos : 0 < file.length) :
    (senderChunkMessages fid file).length = ceilDiv file.length CHUNK_SIZE ∧
    (senderChunkMessages fid file).map ChunkMsg.chunkIndex =
      List.range (ceilDiv file.length CHUNK_SIZE) ∧
    (runReceiver
      ([.batch_start 1 file.length,
        .file_metadata ⟨fid, name, sanitized, file.length,
          totalChunksOf file.length⟩] ++
       (senderChunkMessages fid file).map
         (fun m => PeerMsg.file_chunk m.fileId m.chunkIndex m.totalChunks
           m.data m.checksum) ++
       [.file_complete fid finalHash])).received.map (fun p => p.2) = [file] ∧
    (alLookup (runReceiver
      ([.batch_start 1 file.length,
        .file_metadata ⟨fid, name, sanitized, file.length,
          totalChunksOf file.length⟩] ++
       (senderChunkMessages fid file).map
         (fun m => PeerMsg.file_chunk m.fileId m.chunkIndex m.totalChunks
           m.data m.checksum) ++
       [.file_complete fid finalHash])).fileProgress fid).map
        TransferProgress.status = some Status.completed := by
  have hCpos : 0 < CHUNK_SIZE := by decide
  have hmsgs : (senderChunkMessages fid file).map
      (fun m => PeerMsg.file_chunk m.fileId m.chunkIndex m.totalChunks
        m.data m.checksum) =
      chunkMsgsFrom fid (totalChunksOf file.length) 0
        ((List.range (totalChunksOf file.length)).map
          (fun i => (file.drop (i * CHUNK_SIZE)).take CHUNK_SIZE)) := by
    rw [senderChunkMessages_eq, List.map_map]
    dsimp only [Function.comp_def]
    rw [List.range_eq_range',
      chunkMsgsFrom_of_range' fid (totalChunksOf file.length)
        (fun i => (file.drop (i * CHUNK_SIZE)).take CHUNK_SIZE)]
  have hjoin : ((List.range (totalChunksOf file.length)).map
      (fun i => (file.drop (i * CHUNK_SIZE)).take CHUNK_SIZE)).flatten = file :=
    chunkJoin CHUNK_SIZE hCpos _ file rfl
  refine ⟨?_, ?_, ?_, ?_⟩
  · rw [senderChunkMessages_eq]
    simp [totalChunksOf]
  · rw [senderChunkMessages_eq]
    simp [totalChunksOf, Function.comp_def]
  all_goals {
    rw [hmsgs]
    have hfold := rcvFold_chunks fid
      ⟨fid, sanitizeFileNameS name, sanitizeFileNameS sanitized, file.length,
        totalChunksOf file.length⟩
      (totalChunksOf file.length)
      ((List.range (totalChunksOf file.length)).map
        (fun i => (file.drop (i * CHUNK_SIZE)).take CHUNK_SIZE))
      0 [] ⟨fid, sanitizeFileNameS sanitized, file.length, 0, .transferring, none⟩
      ⟨1, 0, file.length, 0, some fid, .transferring⟩ rfl
    obtain ⟨p2, b2, heq⟩ := hfold
    simp only [runReceiver, List.foldl_append, List.foldl_cons, List.foldl_nil]
    have hpre : rcvStep (rcvStep initialRcvState (.batch_start 1 file.length))
        (.file_metadata ⟨fid, name, sanitized, file.length,
          totalChunksOf file.length⟩) =
        ⟨true, [(fid, ⟨fid, sanitizeFileNameS sanitized, file.length, 0,
            .transferring, none⟩)],
          ⟨1, 0, file.length, 0, some fid, .transferring⟩,
          [(fid, ([] : List (List Nat)).map some)], [(fid,
            ⟨fid, sanitizeFileNameS name, sanitizeFileNameS sanitized,
              file.length, totalChunksOf file.length⟩)], [], [], 0⟩ := by
      simp [rcvStep, initialRcvState, alInsert, sanitizeFileNameS]
    rw [hpre, heq]
    simp [rcvStep, alLookup, alUpdate, alErase, hjoin]
  }

/-- Witness for C4 at the three-byte file `[7, 8, 9]`. -/
theorem secureTransfer_C4_chunk_roundtrip_witness :
    0 < ([7, 8, 9] : List Nat).length ∧
    (runReceiver
      ([.batch_start 1 ([7, 8, 9] : List Nat).length,
        .file_metadata ⟨"fw", "w.bin", "w.bin", ([7, 8, 9] : List Nat).length,
          totalChunksOf ([7, 8, 9] : List Nat).length⟩] ++
       (senderChunkMessages "fw" [7, 8, 9]).map
         (fun m => PeerMsg.file_chunk m.fileId m.chunkIndex m.totalChunks
           m.data m.checksum) ++
       [.file_complete "fw" "fh"])).received.map (fun p => p.2) = [[7, 8, 9]] :=
  ⟨by decide,
    (secureTransfer_C4_chunk_roundtrip "fw" "w.bin" "w.bin" "fh" [7, 8, 9]
      (by decide)).2.2.1⟩

end SecureTransfer
